import Mathlib

/-!
# Verification of the benode presence-aware message relay

A shallow embedding of the relay core (the WebSocket chat server variant):
the connection registry, offline mailbox, relay router, presence
broadcaster, liveness monitor and the periodic expiry sweep, together with
proofs of the specified properties.

JavaScript `Map` objects are modelled as insertion-ordered association
lists: `set` replaces in place or appends, `delete` removes the entry,
`keys()` is the list of first components. `Date.now()` is modelled as a
`Nat` parameter `now`; the JS comparisons `now - ts < EXPIRY` and
`now - ts >= EXPIRY` agree with truncated `Nat` subtraction for `ts > now`
(both give age `≤ 0`, hence "fresh"), so `Nat` subtraction is faithful.
-/

namespace Benode

/-! ## Association-list model of JS `Map` -/

def mapGet {α β : Type} [DecidableEq α] : List (α × β) → α → Option β
  | [], _ => none
  | (k, v) :: rest, k' => if k = k' then some v else mapGet rest k'

def mapSet {α β : Type} [DecidableEq α] : List (α × β) → α → β → List (α × β)
  | [], k, v => [(k, v)]
  | (k', v') :: rest, k, v =>
    if k' = k then (k, v) :: rest else (k', v') :: mapSet rest k v

def mapDelete {α β : Type} [DecidableEq α] : List (α × β) → α → List (α × β)
  | [], _ => []
  | (k', v') :: rest, k =>
    if k' = k then mapDelete rest k else (k', v') :: mapDelete rest k

def mapKeys {α β : Type} (m : List (α × β)) : List α := m.map (·.1)

def mapHas {α β : Type} [DecidableEq α] (m : List (α × β)) (k : α) : Bool :=
  (mapGet m k).isSome

/-! ## Server configuration constants (part_000 lines 7-10) -/

def MESSAGE_EXPIRY : Nat := 24 * 60 * 60 * 1000

def PING_INTERVAL : Nat := 60 * 1000

def CONNECTION_TIMEOUT : Nat := 5 * 60 * 1000

/-! ## Data model -/

/-- A transport handle (`ws`), identified by a numeric id. -/
abbrev ConnId := Nat

/-- A stored or routed chat message (the object built in `handleChatMessage`;
`type` is always the literal `'message'` so it is omitted). -/
structure ChatMsg where
  sender : String
  receiver : String
  content : String
  timestamp : Nat
  deriving DecidableEq

/-- An entry of the `userStatus` map. -/
structure UserStat where
  lastSeen : Option Nat
  status : String
  deriving DecidableEq

/-- Outbound envelope payloads the relay produces. -/
inductive OutEnvelope where
  | pong (timestamp : Nat)
  | message (m : ChatMsg)
  | userUpdate (users : List String) (timestamp : Nat)
  | error (reason : String)
  deriving DecidableEq

/-- Observable transport actions: `ws.send` of a payload and
`ws.close(code, reason)`. -/
inductive Action where
  | send (c : ConnId) (e : OutEnvelope)
  | close (c : ConnId) (code : Nat) (reason : String)
  deriving DecidableEq

/-- The three module-level data stores (part_000 lines 21-23). -/
structure ServerState where
  activeConnections : List (String × ConnId)
  offlineMessages : List (String × List ChatMsg)
  userStatus : List (String × UserStat)
  deriving DecidableEq

/-- The offline message store on its own. -/
abbrev Mailbox := List (String × List ChatMsg)

/-- A parsed inbound frame: `JSON.parse` failure, or the payload
dispatched on by `handleMessage`; missing string fields read as `""`. -/
inductive Inbound where
  | malformed
  | ping
  | message (receiver content : String)
  | other (t : String)
  deriving DecidableEq

/-! ## Operations (translated from part_000) -/

/-- Result of `deliverQueuedMessages` restricted to the mailbox:
the updated store and the messages passed to `ws.send`. -/
structure DrainResult where
  box : Mailbox
  sent : List ChatMsg
  deriving DecidableEq

/-- Lines 88-110. `wsOpen` is `ws.readyState === WebSocket.OPEN`.
Fresh messages (age `< MESSAGE_EXPIRY`) are sent when the socket is open;
the store is then rewritten to hold exactly the messages with age
`≥ MESSAGE_EXPIRY`, the key being deleted when that list is empty. -/
def drainMailbox (box : Mailbox) (username : String) (wsOpen : Bool) (now : Nat) :
    DrainResult :=
  match mapGet box username with
  | none => ⟨box, []⟩
  | some msgs =>
    let fresh := msgs.filter (fun m => now - m.timestamp < MESSAGE_EXPIRY)
    let sent := if wsOpen then fresh else []
    let remaining := msgs.filter (fun m => MESSAGE_EXPIRY ≤ now - m.timestamp)
    ⟨if remaining.isEmpty then mapDelete box username
      else mapSet box username remaining, sent⟩

/-- The function `deliverQueuedMessages` acting on the full server state. -/
def deliverQueuedMessages (st : ServerState) (username : String) (wsOpen : Bool)
    (now : Nat) : ServerState × List ChatMsg :=
  let r := drainMailbox st.offlineMessages username wsOpen now
  (⟨st.activeConnections, r.box, st.userStatus⟩, r.sent)

/-- Lines 162-166: ensure a queue exists for the receiver, then push. -/
def enqueueOffline (box : Mailbox) (receiver : String) (msg : ChatMsg) : Mailbox :=
  mapSet box receiver ((mapGet box receiver).getD [] ++ [msg])

/-- Lines 141-167. Requires truthy (non-empty) `receiver` and `content`,
else logs and returns. Delivers directly when the receiver's registered
socket is open (fire-and-forget `send`), otherwise stores offline. -/
def handleChatMessage (st : ServerState) (isOpen : ConnId → Bool)
    (sender receiver content : String) (now : Nat) : ServerState × List Action :=
  if receiver = "" ∨ content = "" then (st, [])
  else
    let msg : ChatMsg := ⟨sender, receiver, content, now⟩
    match mapGet st.activeConnections receiver with
    | some ws =>
      if isOpen ws then (st, [Action.send ws (OutEnvelope.message msg)])
      else (⟨st.activeConnections, enqueueOffline st.offlineMessages receiver msg,
              st.userStatus⟩, [])
    | none =>
      (⟨st.activeConnections, enqueueOffline st.offlineMessages receiver msg,
          st.userStatus⟩, [])

/-- Lines 131-139: answer a `ping` with a `pong` carrying the current time. -/
def handlePing (st : ServerState) (isOpen : ConnId → Bool) (username : String)
    (now : Nat) : List Action :=
  match mapGet st.activeConnections username with
  | some ws => if isOpen ws then [Action.send ws (OutEnvelope.pong now)] else []
  | none => []

/-- Lines 112-129: dispatch on `data.type`; a parse error is caught and
logged, unknown types are logged; neither sends anything back. -/
def handleMessage (st : ServerState) (isOpen : ConnId → Bool) (sender : String)
    (inbound : Inbound) (now : Nat) : ServerState × List Action :=
  match inbound with
  | Inbound.malformed => (st, [])
  | Inbound.ping => (st, handlePing st isOpen sender now)
  | Inbound.message r c => handleChatMessage st isOpen sender r c now
  | Inbound.other _ => (st, [])

/-- Lines 203-216: build the full key list of `activeConnections` once and
send it to every registered connection whose socket is open. -/
def broadcastUserList (active : List (String × ConnId)) (isOpen : ConnId → Bool)
    (now : Nat) : List Action :=
  (active.filter (fun p => isOpen p.2)).map
    (fun p => Action.send p.2 (OutEnvelope.userUpdate (mapKeys active) now))

/-- Lines 169-178. The close handler is `() => handleDisconnect(username)`:
it receives only the username, never the socket that closed. If any
connection is registered under `username` it is removed, the status map
records `offline`, and the user list is re-broadcast. -/
def handleDisconnect (st : ServerState) (isOpen : ConnId → Bool) (username : String)
    (now : Nat) : ServerState × List Action :=
  match mapGet st.activeConnections username with
  | some _ =>
    let active := mapDelete st.activeConnections username
    let status := mapSet st.userStatus username ⟨some now, "offline"⟩
    (⟨active, st.offlineMessages, status⟩, broadcastUserList active isOpen now)
  | none => (st, [])

/-- Lines 45-85, the connection handler up to installing the event
handlers. `username` is the query parameter (`none` when absent); the JS
truthiness test also rejects the empty string. On a duplicate, the prior
socket is closed with `(4002, 'Duplicate connection')` — its own close
event is delivered later as a separate `handleDisconnect` step. -/
def handleConnect (st : ServerState) (isOpen : ConnId → Bool)
    (username : Option String) (ws : ConnId) (now : Nat) : ServerState × List Action :=
  match username with
  | none => (st, [Action.close ws 4001 "Username required"])
  | some u =>
    if u = "" then (st, [Action.close ws 4001 "Username required"])
    else
      let evict : List Action :=
        match mapGet st.activeConnections u with
        | some old => [Action.close old 4002 "Duplicate connection"]
        | none => []
      let active := mapSet st.activeConnections u ws
      let status := mapSet st.userStatus u ⟨none, "online"⟩
      let st1 : ServerState := ⟨active, st.offlineMessages, status⟩
      let bcast := broadcastUserList active isOpen now
      let dq := deliverQueuedMessages st1 u (isOpen ws) now
      (dq.1, evict ++ bcast ++
        dq.2.map (fun m => Action.send ws (OutEnvelope.message m)))

/-- Lines 222-233, the periodic cleanup of `offlineMessages`: the
`forEach` visits each entry in order, filters its queue down to the fresh
entries, re-`set`s the key when any remain and `delete`s it otherwise. -/
def sweepMessages : Mailbox → Nat → Mailbox
  | [], _ => []
  | (k, q) :: rest, now =>
    let valid := q.filter (fun m => now - m.timestamp < MESSAGE_EXPIRY)
    if valid.isEmpty then sweepMessages rest now
    else (k, valid) :: sweepMessages rest now

/-! ## Liveness monitor (lines 185-201) -/

/-- Per-connection heartbeat state: `alive b` tracks `ws.isAlive = b`;
`terminated` means `ws.terminate()` ran and the interval was cleared. -/
inductive HbState where
  | alive (isAlive : Bool)
  | terminated
  deriving DecidableEq

/-- One firing of the `setInterval` callback (period
`CONNECTION_TIMEOUT / 2`); the returned `Bool` records whether a ping was
sent. A connection that never answers delivers no `pong` between ticks. -/
def hbTick : HbState → HbState × Bool
  | HbState.alive false => (HbState.terminated, false)
  | HbState.alive true => (HbState.alive false, true)
  | HbState.terminated => (HbState.terminated, false)

/-- The heartbeat state after `n` ticks for a connection that never sends
a `pong` (`ws.isAlive` starts `true`, line 186). -/
def hbRunNoPong : Nat → HbState
  | 0 => HbState.alive true
  | n + 1 => (hbTick (hbRunNoPong n)).1

/-! ## Derived notions used by the properties -/

/-- The Presence Set: key set of the active-connection registry. -/
def presence (st : ServerState) : List String := mapKeys st.activeConnections

/-- Mailbox invariant: every stored key holds a non-empty queue. -/
def mailboxInv (box : Mailbox) : Prop := ∀ p ∈ box, p.2 ≠ []

/-! ## Concrete scenario used for the duplicate-session race -/

def exStart : ServerState := ⟨[], [], []⟩

/-- Identity `u` connects with socket 1. -/
def exStepA : ServerState × List Action :=
  handleConnect exStart (fun _ => true) (some "u") 1 100

/-- Identity `u` connects again with socket 2; socket 1 is closed with the
duplicate-session code and socket 2 is installed. -/
def exStepB : ServerState × List Action :=
  handleConnect exStepA.1 (fun _ => true) (some "u") 2 200

/-- Socket 1's close event (from the duplicate-session close) is
delivered: its handler runs `handleDisconnect("u")`. -/
def exStepC : ServerState × List Action :=
  handleDisconnect exStepB.1 (fun _ => true) "u" 300

/-- A message already expired at drain time. -/
def exExpiredMsg : ChatMsg := ⟨"a", "u", "hi", 0⟩

/-- A message that is fresh (age 0) at drain time 1000. -/
def exFreshMsg : ChatMsg := ⟨"a", "u", "hi", 1000⟩

/-- A state with `"a"` registered on socket 1 and nothing else. -/
def exStA : ServerState := ⟨[("a", 1)], [], []⟩

/-- A state with `"u"` registered on socket 3 and nothing else. -/
def exStU : ServerState := ⟨[("u", 3)], [], []⟩

/-! ## Map lemmas -/

theorem mapGet_mapSet_self {α β : Type} [DecidableEq α] (m : List (α × β)) (k : α)
    (v : β) : mapGet (mapSet m k v) k = some v := by
  induction m with
  | nil => simp [mapGet, mapSet]
  | cons p rest ih =>
    by_cases h : p.1 = k
    · simp [mapGet, mapSet, h]
    · simp [mapGet, mapSet, h, ih]

theorem mapGet_mapSet_ne {α β : Type} [DecidableEq α] (m : List (α × β)) {k k' : α}
    (v : β) (h : k ≠ k') : mapGet (mapSet m k v) k' = mapGet m k' := by
  induction m with
  | nil => simp [mapGet, mapSet, h]
  | cons p rest ih =>
    by_cases hp : p.1 = k
    · simp [mapGet, mapSet, hp, h]
    · simp [mapGet, mapSet, hp, ih]

theorem mapGet_mapDelete_self {α β : Type} [DecidableEq α] (m : List (α × β))
    (k : α) : mapGet (mapDelete m k) k = none := by
  induction m with
  | nil => simp [mapGet, mapDelete]
  | cons p rest ih =>
    by_cases h : p.1 = k
    · simp [mapDelete, h, ih]
    · simp [mapGet, mapDelete, h, ih]

theorem not_mem_mapKeys_mapDelete {α β : Type} [DecidableEq α] (m : List (α × β))
    (k : α) : k ∉ mapKeys (mapDelete m k) := by
  induction m with
  | nil => simp [mapKeys, mapDelete]
  | cons p rest ih =>
    by_cases h : p.1 = k
    · simpa [mapDelete, h] using ih
    · simp only [mapDelete, h, if_false, mapKeys, List.map_cons, List.mem_cons]
      rintro (rfl | hmem)
      · exact h rfl
      · exact ih hmem

theorem mailboxInv_mapSet {box : Mailbox} {k : String} {v : List ChatMsg}
    (h : mailboxInv box) (hv : v ≠ []) : mailboxInv (mapSet box k v) := by
  induction box with
  | nil => intro p hp; simp [mapSet] at hp; simp [hp, hv]
  | cons q rest ih =>
    intro p hp
    by_cases hq : q.1 = k
    · simp only [mapSet, hq, if_true, List.mem_cons] at hp
      rcases hp with rfl | hp
      · exact hv
      · exact h p (List.mem_cons_of_mem q hp)
    · simp only [mapSet, hq, if_false, List.mem_cons] at hp
      rcases hp with rfl | hp
      · exact h _ (List.mem_cons_self q rest)
      · exact ih (fun r hr => h r (List.mem_cons_of_mem q hr)) p hp

theorem mailboxInv_mapDelete {box : Mailbox} (k : String) (h : mailboxInv box) :
    mailboxInv (mapDelete box k) := by
  induction box with
  | nil => intro p hp; simp [mapDelete] at hp
  | cons q rest ih =>
    intro p hp
    by_cases hq : q.1 = k
    · simp only [mapDelete, hq, if_true] at hp
      exact ih (fun r hr => h r (List.mem_cons_of_mem q hr)) p hp
    · simp only [mapDelete, hq, if_false, List.mem_cons] at hp
      rcases hp with rfl | hp
      · exact h _ (List.mem_cons_self q rest)
      · exact ih (fun r hr => h r (List.mem_cons_of_mem q hr)) p hp

/-! ## Drain, sweep and broadcast lemmas -/

theorem drainMailbox_spec (box : Mailbox) (u : String) (wsOpen : Bool) (now : Nat)
    (q : List ChatMsg) (h : mapGet box u = some q) :
    (drainMailbox box u wsOpen now).sent
        = (if wsOpen then q.filter (fun m => now - m.timestamp < MESSAGE_EXPIRY)
           else [])
    ∧ mapGet (drainMailbox box u wsOpen now).box u
        = (if (q.filter (fun m => MESSAGE_EXPIRY ≤ now - m.timestamp)).isEmpty
           then none
           else some (q.filter (fun m => MESSAGE_EXPIRY ≤ now - m.timestamp))) := by
  unfold drainMailbox
  rw [h]
  refine ⟨rfl, ?_⟩
  by_cases hemp : (q.filter (fun m => MESSAGE_EXPIRY ≤ now - m.timestamp)).isEmpty
  · simp only [hemp, if_true]
    exact mapGet_mapDelete_self box u
  · simp only [hemp, if_false]
    exact mapGet_mapSet_self box u _

theorem mem_drain_sent_iff (box : Mailbox) (u : String) (now : Nat) (e : ChatMsg) :
    e ∈ (drainMailbox box u true now).sent
      ↔ e ∈ (mapGet box u).getD [] ∧ now - e.timestamp < MESSAGE_EXPIRY := by
  unfold drainMailbox
  cases h : mapGet box u with
  | none => simp
  | some q => simp [List.mem_filter]

theorem mem_queue_sweep {u : String} {e : ChatMsg} {now : Nat}
    (box : Mailbox) (hmem : e ∈ (mapGet box u).getD [])
    (hfresh : now - e.timestamp < MESSAGE_EXPIRY) :
    e ∈ (mapGet (sweepMessages box now) u).getD [] := by
  induction box with
  | nil => exact hmem
  | cons p rest ih =>
    obtain ⟨k, q⟩ := p
    by_cases hk : k = u
    · subst hk
      simp only [mapGet, if_true] at hmem
      have hval : e ∈ q.filter (fun m => now - m.timestamp < MESSAGE_EXPIRY) :=
        List.mem_filter.mpr ⟨hmem, by simpa using hfresh⟩
      have hne : ¬(q.filter (fun m => now - m.timestamp < MESSAGE_EXPIRY)).isEmpty := by
        simp only [List.isEmpty_iff]
        exact List.ne_nil_of_mem hval
      simp only [sweepMessages, hne, if_false, mapGet, if_true]
      exact hval
    · simp only [mapGet, hk, if_false] at hmem
      by_cases hemp : (q.filter (fun m => now - m.timestamp < MESSAGE_EXPIRY)).isEmpty
      · simpa [sweepMessages, hemp] using ih hmem
      · simpa [sweepMessages, hemp, mapGet, hk] using ih hmem

theorem mem_queue_foldl_sweep {u : String} {e : ChatMsg} {t2 : Nat}
    (ts : List Nat) (box : Mailbox)
    (hmem : e ∈ (mapGet box u).getD [])
    (hts : ∀ s ∈ ts, s ≤ t2)
    (hfresh : t2 - e.timestamp < MESSAGE_EXPIRY) :
    e ∈ (mapGet (ts.foldl (fun b s => sweepMessages b s) box) u).getD [] := by
  induction ts generalizing box with
  | nil => exact hmem
  | cons s ts ih =>
    have hs : s ≤ t2 := hts s (List.mem_cons_self s ts)
    have hstep : e ∈ (mapGet (sweepMessages box s) u).getD [] :=
      mem_queue_sweep box hmem
        (lt_of_le_of_lt (Nat.sub_le_sub_right hs e.timestamp) hfresh)
    simpa using ih (sweepMessages box s) hstep
      (fun r hr => hts r (List.mem_cons_of_mem s hr))

theorem mem_broadcastUserList {active : List (String × ConnId)}
    {isOpen : ConnId → Bool} {now : Nat} {p : String × ConnId}
    (hp : p ∈ active) (ho : isOpen p.2 = true) :
    Action.send p.2 (OutEnvelope.userUpdate (mapKeys active) now)
      ∈ broadcastUserList active isOpen now := by
  unfold broadcastUserList
  exact List.mem_map.mpr ⟨p, List.mem_filter.mpr ⟨hp, ho⟩, rfl⟩

/-! ## Claim C1 -/

/-- C1: the code contradicts the claim. When identity `u` connects with a
second socket, the first socket is indeed closed with `(4002, 'Duplicate
connection')` and, immediately after the connect handler, the registry
holds exactly `u ↦ 2`. But the evicted socket's own close event then runs
`handleDisconnect("u")`, which removes whatever is registered for `u` —
the registry entry for the live new socket — so the Presence Set ends up
with no entry for `u` at all, not exactly one. -/
theorem c1_duplicate_session_race :
    Action.close 1 4002 "Duplicate connection" ∈ exStepB.2
    ∧ mapGet exStepB.1.activeConnections "u" = some 2
    ∧ presence exStepB.1 = ["u"]
    ∧ mapGet exStepC.1.activeConnections "u" = none
    ∧ presence exStepC.1 = [] := by
  decide

/-! ## Claim C2 -/

/-- C2: the code contradicts the claim. `handleDisconnect` receives only
the username (the close handler is `() => handleDisconnect(username)`), so
a close event for a stale socket (socket 1, evicted earlier) is processed
while socket 2 is registered for `"u"`: instead of being a no-op it
deletes socket 2's registration, rewrites the user-status entry to
`offline`, and thereby empties the Presence Set. -/
theorem c2_stale_close_not_noop :
    mapGet exStepB.1.activeConnections "u" = some 2
    ∧ exStepC.1.activeConnections = []
    ∧ mapGet exStepC.1.userStatus "u" = some ⟨some 300, "offline"⟩
    ∧ exStepC.1 ≠ exStepB.1 := by
  decide

/-! ## Claim C3 -/

/-- C3 counterexample: a queue holding a single entry that is exactly
expired at drain time. The claim says the entry is discarded from the
store; the code's final filter keeps precisely the expired entries, so the
store still holds it after the drain (nothing was delivered). -/
theorem c3_counterexample :
    (drainMailbox [("u", [exExpiredMsg])] "u" true MESSAGE_EXPIRY).sent = []
    ∧ (drainMailbox [("u", [exExpiredMsg])] "u" true MESSAGE_EXPIRY).box
        = [("u", [exExpiredMsg])] := by
  decide

/-- C3 amended: draining over an open socket delivers exactly the entries
strictly younger than the expiry window, in FIFO enqueue order, and
removes the delivered entries from the store; entries already expired at
drain time are not delivered but are RETAINED in the store (the key is
deleted only when no expired entry remains). -/
theorem c3_drain_delivers_fresh_keeps_expired (box : Mailbox) (u : String)
    (now : Nat) (q : List ChatMsg) (h : mapGet box u = some q) :
    (drainMailbox box u true now).sent
        = q.filter (fun m => now - m.timestamp < MESSAGE_EXPIRY)
    ∧ mapGet (drainMailbox box u true now).box u
        = (if (q.filter (fun m => MESSAGE_EXPIRY ≤ now - m.timestamp)).isEmpty
           then none
           else some (q.filter (fun m => MESSAGE_EXPIRY ≤ now - m.timestamp))) := by
  have hs := drainMailbox_spec box u true now q h
  simpa using hs

/-- Witness for the amended C3 theorem: a two-entry queue, one fresh and
one expired, drained at time `MESSAGE_EXPIRY`. -/
theorem c3_drain_witness :
    (drainMailbox [("u", [exExpiredMsg, ⟨"a", "u", "again", 5⟩])] "u" true
        MESSAGE_EXPIRY).sent
      = [⟨"a", "u", "again", 5⟩]
    ∧ mapGet (drainMailbox [("u", [exExpiredMsg, ⟨"a", "u", "again", 5⟩])] "u" true
        MESSAGE_EXPIRY).box "u" = some [exExpiredMsg] := by
  have h := c3_drain_delivers_fresh_keeps_expired
    [("u", [exExpiredMsg, ⟨"a", "u", "again", 5⟩])] "u" MESSAGE_EXPIRY
    [exExpiredMsg, ⟨"a", "u", "again", 5⟩] (by decide)
  rcases h with ⟨h1, h2⟩
  refine ⟨?_, ?_⟩
  · rw [h1]; decide
  · rw [h2]; decide

/-! ## Claim C4 -/

/-- C4: a well-formed directed message from `a` to `b` while `b` is
registered with an open socket results in exactly one `message` envelope
sent to `b`'s socket, carrying that content with `b` as receiver and `a`
as sender, and the server state — in particular the offline-message
store — is unchanged. -/
theorem c4_direct_delivery (st : ServerState) (isOpen : ConnId → Bool)
    (a b c : String) (w : ConnId) (now : Nat)
    (hb : b ≠ "") (hc : c ≠ "")
    (hreg : mapGet st.activeConnections b = some w) (hopen : isOpen w = true) :
    handleChatMessage st isOpen a b c now
      = (st, [Action.send w (OutEnvelope.message ⟨a, b, c, now⟩)]) := by
  simp [handleChatMessage, hb, hc, hreg, hopen]

/-- Witness for C4 at a concrete state. -/
theorem c4_direct_delivery_witness :
    handleChatMessage ⟨[("b", 7)], [], []⟩ (fun _ => true) "a" "b" "hi" 42
      = (⟨[("b", 7)], [], []⟩,
         [Action.send 7 (OutEnvelope.message ⟨"a", "b", "hi", 42⟩)]) :=
  c4_direct_delivery ⟨[("b", 7)], [], []⟩ (fun _ => true) "a" "b" "hi" 7 42
    (by decide) (by decide) (by decide) rfl

/-! ## Claim C5 -/

/-- C5: an entry enqueued at time `e.timestamp` is delivered by a drain at
time `t2` (with enqueue ≤ `t2`) exactly when `t2` lies strictly inside the
expiry window, no matter which expiry-sweep cycles ran in between: sweeps
remove only entries whose age has reached the window, so they never
disturb a still-fresh entry and a drain past the window never delivers. -/
theorem c5_expiry_monotonicity (box : Mailbox) (u : String) (e : ChatMsg)
    (ts : List Nat) (t2 : Nat)
    (hmem : e ∈ (mapGet box u).getD [])
    (henq : e.timestamp ≤ t2)
    (hts : ∀ s ∈ ts, e.timestamp ≤ s ∧ s ≤ t2) :
    e ∈ (drainMailbox (ts.foldl (fun b s => sweepMessages b s) box) u true t2).sent
      ↔ t2 < e.timestamp + MESSAGE_EXPIRY := by
  rw [mem_drain_sent_iff]
  constructor
  · rintro ⟨-, hlt⟩
    omega
  · intro h
    have hfresh : t2 - e.timestamp < MESSAGE_EXPIRY := by omega
    exact ⟨mem_queue_foldl_sweep ts box hmem (fun s hs => (hts s hs).2) hfresh,
      hfresh⟩

/-- Witness for C5: an entry enqueued at time 1000 survives a sweep at
time 2000 and is delivered by a drain at time 5000. -/
theorem c5_expiry_monotonicity_witness :
    exFreshMsg ∈ (drainMailbox
        ([2000].foldl (fun b s => sweepMessages b s) [("u", [exFreshMsg])])
        "u" true 5000).sent
      ↔ 5000 < exFreshMsg.timestamp + MESSAGE_EXPIRY :=
  c5_expiry_monotonicity [("u", [exFreshMsg])] "u" exFreshMsg [2000] 5000
    (by decide) (by decide) (by decide)

/-! ## Claim C6 -/

/-- C6 counterexample: a queue holding one entry of age 0 — far inside the
expiry window — is drained while the reconnecting socket is not open. The
entry is not sent (`sent = []`), yet the final filter removes every
non-expired entry, so the store ends empty: the unexpired message is lost,
not re-enqueued. -/
theorem c6_counterexample :
    (drainMailbox [("u", [exFreshMsg])] "u" false 1000).sent = []
    ∧ (drainMailbox [("u", [exFreshMsg])] "u" false 1000).box = [] := by
  decide

/-- C6 amended: routing a message whose receiver has no open registered
socket does fall back to the mailbox. But delivery is fire-and-forget:
once the registered socket reports open the state is unaffected by the
send outcome, and drain-on-reconnect sends nothing over a non-open socket
while still removing every unexpired entry from the store, so those
messages are dropped. -/
theorem c6_offline_fallback (st : ServerState) (isOpen : ConnId → Bool)
    (sender r c : String) (now : Nat) (hr : r ≠ "") (hc : c ≠ "")
    (hclosed : ∀ w, mapGet st.activeConnections r = some w → isOpen w = false) :
    ((handleChatMessage st isOpen sender r c now).1.offlineMessages
        = enqueueOffline st.offlineMessages r ⟨sender, r, c, now⟩
      ∧ mapGet (handleChatMessage st isOpen sender r c now).1.offlineMessages r
        = some ((mapGet st.offlineMessages r).getD [] ++ [⟨sender, r, c, now⟩]))
    ∧ ∀ (box : Mailbox) (v : String) (t : Nat) (q : List ChatMsg),
        mapGet box v = some q →
        (drainMailbox box v false t).sent = []
        ∧ mapGet (drainMailbox box v false t).box v
            = (if (q.filter (fun m => MESSAGE_EXPIRY ≤ t - m.timestamp)).isEmpty
               then none
               else some (q.filter (fun m => MESSAGE_EXPIRY ≤ t - m.timestamp))) := by
  have hcond : ¬(r = "" ∨ c = "") := by
    rintro (h | h)
    · exact hr h
    · exact hc h
  constructor
  · have henq : (handleChatMessage st isOpen sender r c now).1.offlineMessages
        = enqueueOffline st.offlineMessages r ⟨sender, r, c, now⟩ := by
      cases hmg : mapGet st.activeConnections r with
      | none => simp [handleChatMessage, hcond, hmg]
      | some w => simp [handleChatMessage, hcond, hmg, hclosed w hmg]
    refine ⟨henq, ?_⟩
    rw [henq]
    exact mapGet_mapSet_self st.offlineMessages r _
  · intro box v t q hq
    have hs := drainMailbox_spec box v false t q hq
    simpa using hs

/-- Witness for the amended C6 theorem: receiver `"u"` is registered on
socket 3 which is not open, so the routed message lands in the mailbox. -/
theorem c6_offline_fallback_witness :
    ((handleChatMessage exStU (fun _ => false) "a" "u" "hi" 9).1.offlineMessages
        = enqueueOffline exStU.offlineMessages "u" ⟨"a", "u", "hi", 9⟩
      ∧ mapGet (handleChatMessage exStU (fun _ => false) "a" "u" "hi" 9).1.offlineMessages "u"
        = some ((mapGet exStU.offlineMessages "u").getD []
            ++ [⟨"a", "u", "hi", 9⟩]))
    ∧ ∀ (box : Mailbox) (v : String) (t : Nat) (q : List ChatMsg),
        mapGet box v = some q →
        (drainMailbox box v false t).sent = []
        ∧ mapGet (drainMailbox box v false t).box v
            = (if (q.filter (fun m => MESSAGE_EXPIRY ≤ t - m.timestamp)).isEmpty
               then none
               else some (q.filter (fun m => MESSAGE_EXPIRY ≤ t - m.timestamp))) :=
  c6_offline_fallback exStU (fun _ => false) "a" "u" "hi" 9
    (by decide) (by decide) (fun w _ => rfl)

/-! ## Claim C7 -/

/-- C7 counterexample: with sender `"a"` registered on an open socket, an
unparseable payload and a `message` payload with an empty receiver are
both dropped with no outbound action at all — in particular no `error`
envelope goes back to the sender, contrary to the claim. -/
theorem c7_counterexample :
    handleMessage exStA (fun _ => true) "a" Inbound.malformed 5 = (exStA, [])
    ∧ handleMessage exStA (fun _ => true) "a" (Inbound.message "" "hi") 5
      = (exStA, []) := by
  decide

/-- C7 amended: a payload that fails to parse, and a `message` envelope
missing a non-empty receiver or content, are logged and otherwise ignored:
the relay sends nothing back (no `error` envelope), performs no delivery,
no mailbox enqueue and no registry change, and issues no close — the
sender's connection stays open. -/
theorem c7_malformed_silently_ignored (st : ServerState) (isOpen : ConnId → Bool)
    (sender : String) (now : Nat) :
    handleMessage st isOpen sender Inbound.malformed now = (st, [])
    ∧ ∀ r c, (r = "" ∨ c = "") →
        handleMessage st isOpen sender (Inbound.message r c) now = (st, []) := by
  refine ⟨rfl, ?_⟩
  intro r c h
  simp only [handleMessage, handleChatMessage, if_pos h]

/-- Witness for the amended C7 theorem. -/
theorem c7_malformed_silently_ignored_witness :
    handleMessage exStA (fun _ => true) "a" Inbound.malformed 5 = (exStA, [])
    ∧ ∀ r c, (r = "" ∨ c = "") →
        handleMessage exStA (fun _ => true) "a" (Inbound.message r c) 5
          = (exStA, []) :=
  c7_malformed_silently_ignored exStA (fun _ => true) "a" 5

/-! ## Claim C8 -/

/-- C8: with no `pong` ever received, the heartbeat interval (period
`CONNECTION_TIMEOUT / 2`) marks the connection suspect on its first firing
and terminates it on its second — elapsed time `CONNECTION_TIMEOUT`, which
is within one monitor interval past the timeout. The termination's close
event runs `handleDisconnect`, after which the identity is gone from the
registry and from the Presence Set, and every `user_update` broadcast
emitted by that step lists the remaining identities without it. -/
theorem c8_heartbeat_eviction (st : ServerState) (isOpen : ConnId → Bool)
    (u : String) (now : Nat) (hreg : (mapGet st.activeConnections u).isSome) :
    hbRunNoPong 2 = HbState.terminated
    ∧ hbRunNoPong 1 ≠ HbState.terminated
    ∧ 2 * (CONNECTION_TIMEOUT / 2) ≤ CONNECTION_TIMEOUT + CONNECTION_TIMEOUT / 2
    ∧ mapGet (handleDisconnect st isOpen u now).1.activeConnections u = none
    ∧ u ∉ presence (handleDisconnect st isOpen u now).1
    ∧ ∀ cid users ts2,
        Action.send cid (OutEnvelope.userUpdate users ts2)
            ∈ (handleDisconnect st isOpen u now).2 → u ∉ users := by
  obtain ⟨w, hw⟩ := Option.isSome_iff_exists.mp hreg
  refine ⟨by decide, by decide, by decide, ?_, ?_, ?_⟩
  · simp only [handleDisconnect, hw]
    exact mapGet_mapDelete_self st.activeConnections u
  · simp only [handleDisconnect, hw, presence]
    exact not_mem_mapKeys_mapDelete st.activeConnections u
  · intro cid users ts2 hmem2
    simp only [handleDisconnect, hw, broadcastUserList, List.mem_map,
      List.mem_filter] at hmem2
    obtain ⟨p, -, heq⟩ := hmem2
    simp only [Action.send.injEq, OutEnvelope.userUpdate.injEq] at heq
    obtain ⟨-, rfl, -⟩ := heq
    exact not_mem_mapKeys_mapDelete st.activeConnections u

/-- Witness for C8 at a concrete one-user state. -/
theorem c8_heartbeat_eviction_witness :
    hbRunNoPong 2 = HbState.terminated
    ∧ hbRunNoPong 1 ≠ HbState.terminated
    ∧ 2 * (CONNECTION_TIMEOUT / 2) ≤ CONNECTION_TIMEOUT + CONNECTION_TIMEOUT / 2
    ∧ mapGet (handleDisconnect exStA (fun _ => true) "a" 50).1.activeConnections "a" = none
    ∧ "a" ∉ presence (handleDisconnect exStA (fun _ => true) "a" 50).1
    ∧ ∀ cid users ts2,
        Action.send cid (OutEnvelope.userUpdate users ts2)
            ∈ (handleDisconnect exStA (fun _ => true) "a" 50).2 →
          "a" ∉ users :=
  c8_heartbeat_eviction exStA (fun _ => true) "a" 50 (by decide)

/-! ## Claim C9 -/

/-- Unfolding of the connection handler for a valid (non-empty) username. -/
theorem handleConnect_some (st : ServerState) (isOpen : ConnId → Bool)
    (u : String) (ws : ConnId) (now : Nat) (hu : u ≠ "") :
    handleConnect st isOpen (some u) ws now
      = (⟨mapSet st.activeConnections u ws,
          (drainMailbox st.offlineMessages u (isOpen ws) now).box,
          mapSet st.userStatus u ⟨none, "online"⟩⟩,
         (match mapGet st.activeConnections u with
          | some old => [Action.close old 4002 "Duplicate connection"]
          | none => []) ++
         broadcastUserList (mapSet st.activeConnections u ws) isOpen now ++
         (drainMailbox st.offlineMessages u (isOpen ws) now).sent.map
           (fun m => Action.send ws (OutEnvelope.message m))) := by
  simp [handleConnect, deliverQueuedMessages, hu]

/-- C9: the registration step and the unregistration step (which also
serves eviction, both for heartbeat termination and for the close event of
a replaced socket) each re-broadcast a `user_update` envelope whose `users`
field is the full key list of the registry as it stands after the step —
not a delta — to every registered connection whose socket is open. -/
theorem c9_presence_broadcast (st : ServerState) (isOpen : ConnId → Bool)
    (u : String) (ws : ConnId) (now : Nat) (hu : u ≠ "") :
    (∀ p ∈ (handleConnect st isOpen (some u) ws now).1.activeConnections,
        isOpen p.2 = true →
        Action.send p.2 (OutEnvelope.userUpdate
            (presence (handleConnect st isOpen (some u) ws now).1) now)
          ∈ (handleConnect st isOpen (some u) ws now).2)
    ∧ ((mapGet st.activeConnections u).isSome →
        ∀ p ∈ (handleDisconnect st isOpen u now).1.activeConnections,
          isOpen p.2 = true →
          Action.send p.2 (OutEnvelope.userUpdate
              (presence (handleDisconnect st isOpen u now).1) now)
            ∈ (handleDisconnect st isOpen u now).2) := by
  constructor
  · intro p hp ho
    rw [handleConnect_some st isOpen u ws now hu] at hp ⊢
    simp only [presence] at hp ⊢
    exact List.mem_append.mpr (Or.inl (List.mem_append.mpr
      (Or.inr (mem_broadcastUserList hp ho))))
  · intro hreg p hp ho
    obtain ⟨w, hw⟩ := Option.isSome_iff_exists.mp hreg
    simp only [handleDisconnect, hw, presence] at hp ⊢
    exact mem_broadcastUserList hp ho

/-- Witness for C9: `"b"` connects to (and then disconnects from) a state
in which `"a"` is registered. -/
theorem c9_presence_broadcast_witness :
    (∀ p ∈ (handleConnect exStA (fun _ => true) (some "b") 2 7).1.activeConnections,
        (fun (_ : ConnId) => true) p.2 = true →
        Action.send p.2 (OutEnvelope.userUpdate
            (presence (handleConnect exStA (fun _ => true) (some "b") 2 7).1) 7)
          ∈ (handleConnect exStA (fun _ => true) (some "b") 2 7).2)
    ∧ ((mapGet exStA.activeConnections "b").isSome →
        ∀ p ∈ (handleDisconnect exStA (fun _ => true) "b" 7).1.activeConnections,
          (fun (_ : ConnId) => true) p.2 = true →
          Action.send p.2 (OutEnvelope.userUpdate
              (presence (handleDisconnect exStA (fun _ => true) "b" 7).1) 7)
            ∈ (handleDisconnect exStA (fun _ => true) "b" 7).2) :=
  c9_presence_broadcast exStA (fun _ => true) "b" 2 7 (by decide)

/-! ## Claim C10 -/

/-- The expiry sweep leaves only non-empty queues, unconditionally. -/
theorem mailboxInv_sweep (box : Mailbox) (now : Nat) :
    mailboxInv (sweepMessages box now) := by
  induction box with
  | nil => intro p hp; simp [sweepMessages] at hp
  | cons q rest ih =>
    intro p hp
    obtain ⟨k, l⟩ := q
    by_cases hemp : (l.filter (fun m => now - m.timestamp < MESSAGE_EXPIRY)).isEmpty = true
    · simp only [sweepMessages, hemp, if_true] at hp
      exact ih p hp
    · simp [sweepMessages, hemp] at hp
      rcases hp with rfl | hp
      · simpa [List.isEmpty_iff] using hemp
      · exact ih p hp

/-- C10: if every stored identity holds a non-empty queue, the same is
true after an offline enqueue, after a drain-on-reconnect, and after an
expiry sweep — each operation deletes a key rather than leave an empty
queue behind. -/
theorem c10_mailbox_nonempty_invariant (box : Mailbox) (r u : String)
    (m : ChatMsg) (wsOpen : Bool) (tDrain tSweep : Nat) (h : mailboxInv box) :
    mailboxInv (enqueueOffline box r m)
    ∧ mailboxInv (drainMailbox box u wsOpen tDrain).box
    ∧ mailboxInv (sweepMessages box tSweep) := by
  refine ⟨?_, ?_, mailboxInv_sweep box tSweep⟩
  · unfold enqueueOffline
    exact mailboxInv_mapSet h (by simp)
  · rcases hmg : mapGet box u with - | q
    · simpa only [drainMailbox, hmg] using h
    · by_cases hemp : (q.filter (fun m2 => MESSAGE_EXPIRY ≤ tDrain - m2.timestamp)).isEmpty = true
      · simp only [drainMailbox, hmg, hemp, if_true]
        exact mailboxInv_mapDelete u h
      · simp only [drainMailbox, hmg, hemp, if_false]
        exact mailboxInv_mapSet h (by simpa [List.isEmpty_iff] using hemp)

/-- Witness for C10 on a concrete store satisfying the invariant. -/
theorem c10_mailbox_nonempty_invariant_witness :
    mailboxInv (enqueueOffline [("u", [exFreshMsg])] "v" exExpiredMsg)
    ∧ mailboxInv (drainMailbox [("u", [exFreshMsg])] "u" true 1000).box
    ∧ mailboxInv (sweepMessages [("u", [exFreshMsg])] 1000) :=
  c10_mailbox_nonempty_invariant [("u", [exFreshMsg])] "v" "u" exExpiredMsg
    true 1000 1000 (by unfold mailboxInv; decide)

end Benode
